import Mathlib

/-!
Verification of the synchronous-replication wait engine (`syncrep.c`), the
foreign-transaction resolver timeout path (`launcher.c`) and the
postgres_fdw resolve driver (`connection.c`) of this PostgreSQL fork.

The C code is shallowly embedded: shared-memory structures become Lean
structures, the stateful procedures become explicit state-passing
functions, and LSNs (`XLogRecPtr`, an unsigned 64-bit log position) become
natural numbers (no arithmetic in the embedded code can overflow 64 bits
on reachable inputs; comparisons are the only operations performed).
-/

namespace Syncrep

/-! ## Basic WAL / walsender data model -/

/-- `XLogRecPtr`: a WAL position.  `0` is `InvalidXLogRecPtr`. -/
abbrev XLogRecPtr := Nat

/-- `InvalidXLogRecPtr` from `xlogdefs.h`. -/
def InvalidXLogRecPtr : XLogRecPtr := 0

/-- `XLogRecPtrIsInvalid(r)` from `xlogdefs.h`. -/
def XLogRecPtrIsInvalid (r : XLogRecPtr) : Bool := r == 0

/-- `WALSNDSTATE_STARTUP` (walsender_private.h enum value 0). -/
def WALSNDSTATE_STARTUP : Nat := 0

/-- `WALSNDSTATE_STREAMING` (walsender_private.h enum value 3). -/
def WALSNDSTATE_STREAMING : Nat := 3

/-- syncRepState value `SYNC_REP_NOT_WAITING` (syncrep.h). -/
def SYNC_REP_NOT_WAITING : Nat := 0

/-- syncRepState value `SYNC_REP_WAITING` (syncrep.h). -/
def SYNC_REP_WAITING : Nat := 1

/-- syncRepState value `SYNC_REP_WAIT_COMPLETE` (syncrep.h). -/
def SYNC_REP_WAIT_COMPLETE : Nat := 2

/-- Wait mode `SYNC_REP_WAIT_WRITE` (syncrep.h). -/
def SYNC_REP_WAIT_WRITE : Nat := 0

/-- Wait mode `SYNC_REP_WAIT_FLUSH` (syncrep.h). -/
def SYNC_REP_WAIT_FLUSH : Nat := 1

/--
One wal-sender slot (`WalSnd` in walsender_private.h), restricted to the
fields `syncrep.c` reads.  Application names (`walsnd->name`,
compared with `pg_strcasecmp`) are abstracted to natural-number
identifiers, equality of identifiers standing for case-insensitive
equality of the C strings.
-/
structure WalSnd where
  pid : Nat
  state : Nat
  sync_standby_priority : Nat
  write : XLogRecPtr
  flush : XLogRecPtr
  name : Nat
  deriving Repr, DecidableEq

/-- Default slot used to total out-of-range array reads. -/
def WalSnd.default : WalSnd :=
  { pid := 0, state := 0, sync_standby_priority := 0
    write := 0, flush := 0, name := 0 }

/-- The wal-sender array `WalSndCtl->walsnds[0 .. max_wal_senders-1]`. -/
abbrev WalSndArray := List WalSnd

/-- Read slot `i` of the array (in the C code every access is in bounds). -/
def walsndAt (ws : WalSndArray) (i : Nat) : WalSnd := ws.getD i WalSnd.default

/--
`SyncRepStandbyIsSync(pos)` (syncrep.c): the standby at `pos` is active —
it has a pid, is streaming, has nonzero sync priority and a valid flush
position.
-/
def SyncRepStandbyIsSync (ws : WalSndArray) (pos : Nat) : Bool :=
  let walsnd := walsndAt ws pos
  if walsnd.pid == 0 then false
  else if walsnd.state != WALSNDSTATE_STREAMING then false
  else if walsnd.sync_standby_priority == 0 then false
  else if XLogRecPtrIsInvalid walsnd.flush then false
  else true

/-! ## SRW wait queue (claims C3, C4, C9)

A queue (`WalSndCtl->SyncRepQueue[mode]`) is a shared-memory doubly
linked list of `PGPROC` nodes; we embed it as a Lean list, head first.
Each node carries the backend's `waitLSN` and `syncRepState`, plus an
abstract process identity `pid` so that distinct backends can be told
apart. -/

/-- The `PGPROC` fields involved in synchronous-replication waiting. -/
structure SRProc where
  pid : Nat
  waitLSN : XLogRecPtr
  syncRepState : Nat
  deriving Repr, DecidableEq

/--
The backward walk of `SyncRepQueueInsert` (syncrep.c), expressed on the
reversed queue (tail first): starting from the tail, skip nodes until the
first node whose `waitLSN` is strictly less than the new node's
`waitLSN`, and insert the new node right after it (i.e. on its tail side);
if no such node exists the new node ends up at the head.
-/
def queueInsertRev (myLSN : XLogRecPtr) : List SRProc → SRProc → List SRProc
  | [], me => [me]
  | p :: rest, me =>
    if p.waitLSN < myLSN then me :: p :: rest
    else p :: queueInsertRev myLSN rest me

/--
`SyncRepQueueInsert` (syncrep.c): insert `me` (with `me.waitLSN` already
set) into the queue, walking backward from the tail and stopping at the
first node whose `waitLSN < me.waitLSN`.
-/
def SyncRepQueueInsert (q : List SRProc) (me : SRProc) : List SRProc :=
  (queueInsertRev me.waitLSN q.reverse me).reverse

/--
`SyncRepQueueIsOrderedByLSN` (syncrep.c, assertion helper): walk from the
head with `lastLSN` starting at `0`; every node's `waitLSN` must strictly
exceed the previous one (duplicates are rejected by the `<=` test).
-/
def queueOrderedFrom (lastLSN : XLogRecPtr) : List SRProc → Bool
  | [] => true
  | p :: rest =>
    if p.waitLSN ≤ lastLSN then false
    else queueOrderedFrom p.waitLSN rest

/-- `SyncRepQueueIsOrderedByLSN(mode)` applied to a queue value. -/
def SyncRepQueueIsOrderedByLSN (q : List SRProc) : Bool :=
  queueOrderedFrom 0 q

end Syncrep

namespace Syncrep

/-- Strict LSN ascent between adjacent queue nodes. -/
def lsnLT (a b : SRProc) : Prop := a.waitLSN < b.waitLSN

instance : DecidableRel lsnLT := fun a b => Nat.decLt a.waitLSN b.waitLSN

/-- Every element of the queue produced by the backward-walk insertion is
either the new node or an element of the input queue. -/
theorem mem_queueInsertRev {rq : List SRProc} {me a : SRProc} {L : XLogRecPtr}
    (h : a ∈ queueInsertRev L rq me) : a = me ∨ a ∈ rq := by
  induction rq with
  | nil =>
    simp [queueInsertRev] at h
    exact Or.inl h
  | cons p rest ih =>
    by_cases hc : p.waitLSN < L
    · simp [queueInsertRev, hc] at h
      rcases h with h | h | h
      · exact Or.inl h
      · exact Or.inr (by simp [h])
      · exact Or.inr (by simp [h])
    · simp [queueInsertRev, hc] at h
      rcases h with h | h
      · exact Or.inr (by simp [h])
      · rcases ih h with h' | h'
        · exact Or.inl h'
        · exact Or.inr (by simp [h'])

/-- The head of the queue produced by the backward-walk insertion is the
new node or the head of the input queue. -/
theorem head_queueInsertRev {rq : List SRProc} {me x : SRProc} {L : XLogRecPtr}
    (h : (queueInsertRev L rq me).head? = some x) :
    x = me ∨ rq.head? = some x := by
  cases rq with
  | nil =>
    simp [queueInsertRev] at h
    exact Or.inl h.symm
  | cons p rest =>
    by_cases hc : p.waitLSN < L
    · simp [queueInsertRev, hc] at h
      exact Or.inl h.symm
    · simp [queueInsertRev, hc] at h
      exact Or.inr (by simp [h])

/-- Core inductive step for the insertion invariant, stated on the
reversed (tail-first) queue: a strictly descending reversed queue stays
strictly descending when a node with a fresh `waitLSN` is inserted by the
backward walk. -/
theorem queueInsertRev_chain {rq : List SRProc} {me : SRProc}
    (hq : rq.Chain' (flip lsnLT))
    (hne : ∀ p ∈ rq, p.waitLSN ≠ me.waitLSN) :
    (queueInsertRev me.waitLSN rq me).Chain' (flip lsnLT) := by
  induction rq with
  | nil => simp [queueInsertRev]
  | cons p rest ih =>
    by_cases hc : p.waitLSN < me.waitLSN
    · simp only [queueInsertRev, hc, if_true]
      exact List.Chain'.cons hc hq
    · have hpm : me.waitLSN < p.waitLSN := by
        have hnep := hne p (by simp)
        exact Nat.lt_of_le_of_ne (Nat.not_lt.mp hc) (Ne.symm hnep)
      simp only [queueInsertRev, hc, if_false]
      rw [List.chain'_cons']
      refine ⟨?_, ih (List.Chain'.tail hq) (fun a ha => hne a (by simp [ha]))⟩
      intro y hy
      rcases head_queueInsertRev hy with rfl | hy'
      · exact hpm
      · rw [List.chain'_cons'] at hq
        exact hq.1 y hy'

/-- Orderedness check unfolded: the walk from `lastLSN` succeeds exactly
when the queue is a strict `waitLSN` chain whose head exceeds `lastLSN`. -/
theorem queueOrderedFrom_eq_true_iff (lastLSN : XLogRecPtr) (q : List SRProc) :
    queueOrderedFrom lastLSN q = true ↔
      (q.Chain' lsnLT ∧ ∀ x ∈ q.head?, lastLSN < x.waitLSN) := by
  induction q generalizing lastLSN with
  | nil => simp [queueOrderedFrom]
  | cons p rest ih =>
    by_cases hc : p.waitLSN ≤ lastLSN
    · simp only [queueOrderedFrom, hc, if_true]
      constructor
      · intro h
        exact absurd h (by simp)
      · rintro ⟨-, h⟩
        exact absurd (h p (by simp)) (Nat.not_lt.mpr hc)
    · simp only [queueOrderedFrom, hc, if_false]
      rw [ih, List.chain'_cons']
      constructor
      · rintro ⟨hch, hhd⟩
        exact ⟨⟨fun y hy => hhd y hy, hch⟩, by simpa using Nat.lt_of_not_le hc⟩
      · rintro ⟨⟨hhd, hch⟩, -⟩
        exact ⟨hch, fun y hy => hhd y hy⟩

/-- A queue passing the walk from `lastLSN` has all its `waitLSN`s above
`lastLSN`. -/
theorem queueOrderedFrom_all_gt {lastLSN : XLogRecPtr} {q : List SRProc}
    (h : queueOrderedFrom lastLSN q = true) :
    ∀ x ∈ q, lastLSN < x.waitLSN := by
  induction q generalizing lastLSN with
  | nil => simp
  | cons p rest ih =>
    by_cases hc : p.waitLSN ≤ lastLSN
    · simp [queueOrderedFrom, hc] at h
    · simp only [queueOrderedFrom, hc, if_false] at h
      intro x hx
      rcases List.mem_cons.mp hx with rfl | hx'
      · exact Nat.lt_of_not_le (fun hle => hc hle)
      · exact Nat.lt_trans (Nat.lt_of_not_le (fun hle => hc hle)) (ih h x hx')


/--
C3 (amended): for every wait queue that passes the code's own ordering
check `SyncRepQueueIsOrderedByLSN` (strictly ascending `waitLSN`, no
duplicates), and every new waiter whose `waitLSN` is a valid (nonzero)
LSN distinct from every queued waiter's `waitLSN`, the backward-walk
insertion of `SyncRepQueueInsert` yields a queue that still passes the
ordering check.
-/
theorem syncRepQueueInsert_preserves_order
    (q : List SRProc) (me : SRProc)
    (hq : SyncRepQueueIsOrderedByLSN q = true)
    (hpos : 0 < me.waitLSN)
    (hne : ∀ p ∈ q, p.waitLSN ≠ me.waitLSN) :
    SyncRepQueueIsOrderedByLSN (SyncRepQueueInsert q me) = true := by
  have hall : ∀ x ∈ q, 0 < x.waitLSN := queueOrderedFrom_all_gt hq
  rw [SyncRepQueueIsOrderedByLSN, queueOrderedFrom_eq_true_iff] at hq
  rw [SyncRepQueueIsOrderedByLSN, queueOrderedFrom_eq_true_iff]
  obtain ⟨hch, -⟩ := hq
  have hrev : q.reverse.Chain' (flip lsnLT) := List.chain'_reverse.mpr hch
  have hne' : ∀ p ∈ q.reverse, p.waitLSN ≠ me.waitLSN := by
    intro p hp
    exact hne p (List.mem_reverse.mp hp)
  have hins : (queueInsertRev me.waitLSN q.reverse me).Chain' (flip lsnLT) :=
    queueInsertRev_chain hrev hne'
  refine ⟨List.chain'_reverse.mpr hins, ?_⟩
  intro x hx
  have hxmem : x ∈ SyncRepQueueInsert q me := List.mem_of_mem_head? hx
  rw [SyncRepQueueInsert, List.mem_reverse] at hxmem
  rcases mem_queueInsertRev hxmem with rfl | hxq
  · exact hpos
  · exact hall x (List.mem_reverse.mp hxq)

/--
C3 counterexample: the claim as stated quantifies over *any* new
`waitLSN`, including one equal to a queued waiter's LSN.  Inserting a
waiter with `waitLSN = 5` into the ordered queue `[5]` yields a queue
that fails the code's own ordering check (it now holds a duplicate LSN),
and inserting the invalid LSN `0` into the ordered queue `[1]` fails it
as well.
-/
theorem syncRepQueueInsert_duplicate_breaks_order :
    SyncRepQueueIsOrderedByLSN [⟨1, 5, 1⟩] = true ∧
    SyncRepQueueIsOrderedByLSN
      (SyncRepQueueInsert [⟨1, 5, 1⟩] ⟨2, 5, 1⟩) = false ∧
    SyncRepQueueIsOrderedByLSN [⟨1, 1, 1⟩] = true ∧
    SyncRepQueueIsOrderedByLSN
      (SyncRepQueueInsert [⟨1, 1, 1⟩] ⟨2, 0, 1⟩) = false := by
  decide

/--
C3 witness: the amended insertion theorem applied to the concrete ordered
queue `[5, 9]` and a new waiter at LSN `7`.
-/
theorem syncRepQueueInsert_preserves_order_witness :
    SyncRepQueueIsOrderedByLSN
      (SyncRepQueueInsert [⟨1, 5, 1⟩, ⟨3, 9, 1⟩] ⟨2, 7, 1⟩) = true :=
  syncRepQueueInsert_preserves_order [⟨1, 5, 1⟩, ⟨3, 9, 1⟩] ⟨2, 7, 1⟩
    (by decide) (by decide) (by decide)

end Syncrep

namespace Syncrep

/-! ## Standby group evaluation, priority method (claims C1, C2)

`synchronous_standby_names` parses into a group node holding `wait_num`
and a member list (`SyncGroupNode` in syncrep.h); a member is either a
standby name or the wildcard `*` (the C code distinguishes the two with
`pg_strcasecmp(node->name, "*")`). -/

/-- One entry of `group->members`. -/
inductive SyncGroupMember
  | star
  | named (name : Nat)
  deriving Repr, DecidableEq

/-- The group node fields read by the priority-method functions. -/
structure SyncGroupNode where
  wait_num : Nat
  members : List SyncGroupMember
  deriving Repr, DecidableEq

/--
`SyncRepFindWalSenderByName` (syncrep.c): scan the wal-sender array from
index 0 upward and return the first slot that is an active synchronous
standby (`SyncRepStandbyIsSync`) bearing the given name; `none` stands
for the C return value `-1`.
-/
def SyncRepFindWalSenderByName (ws : WalSndArray) (name : Nat) : Option Nat :=
  (List.range ws.length).find?
    (fun i => SyncRepStandbyIsSync ws i && (walsndAt ws i).name == name)

/--
The inner `for (i = 0; i < max_wal_senders; i++)` loop of the `*` branch
of `SyncRepGetSyncStandbysUsingPriority` (syncrep.c), over the remaining
candidate slot indexes `is` with accumulated sync list `acc`: stop once
`wait_num` standbys are listed; skip non-sync slots; look the slot up *by
name*; skip it when the slot found by name is already listed; otherwise
append that slot.
-/
def starLoop (ws : WalSndArray) (wait_num : Nat) :
    List Nat → List Nat → List Nat
  | [], acc => acc
  | i :: is, acc =>
    if acc.length ≥ wait_num then acc
    else if ¬ (SyncRepStandbyIsSync ws i = true) then starLoop ws wait_num is acc
    else
      match SyncRepFindWalSenderByName ws (walsndAt ws i).name with
      | none => starLoop ws wait_num is acc
      | some pos =>
        if pos ∈ acc then starLoop ws wait_num is acc
        else starLoop ws wait_num is (acc ++ [pos])

/--
The outer member loop of `SyncRepGetSyncStandbysUsingPriority`
(syncrep.c): stop once `wait_num` standbys are listed; a named member
contributes the slot found by `SyncRepFindWalSenderByName` (skipped when
absent); a `*` member runs the inner slot loop over all slot indexes.
-/
def syncStandbysLoop (ws : WalSndArray) (wait_num : Nat) :
    List SyncGroupMember → List Nat → List Nat
  | [], acc => acc
  | m :: rest, acc =>
    if acc.length ≥ wait_num then acc
    else
      match m with
      | .named n =>
        match SyncRepFindWalSenderByName ws n with
        | none => syncStandbysLoop ws wait_num rest acc
        | some pos => syncStandbysLoop ws wait_num rest (acc ++ [pos])
      | .star =>
        syncStandbysLoop ws wait_num rest
          (starLoop ws wait_num (List.range ws.length) acc)

/--
`SyncRepGetSyncStandbysUsingPriority` (syncrep.c): the sync list — the
result value `num` of the C function is the length of this list, and
`sync_list[0..num-1]` are its elements.
-/
def SyncRepGetSyncStandbysUsingPriority (ws : WalSndArray)
    (group : SyncGroupNode) : List Nat :=
  syncStandbysLoop ws group.wait_num group.members []

/-- One step of the LSN-minimum accumulation in
`SyncRepGetSyncedLsnsUsingPriority`:
`if (XLogRecPtrIsInvalid(*pos) || *pos > v) *pos = v`. -/
def lsnAccum (cur v : XLogRecPtr) : XLogRecPtr :=
  if XLogRecPtrIsInvalid cur || cur > v then v else cur

/--
The `for (i = 0; i < sync_num; i++)` loop of
`SyncRepGetSyncedLsnsUsingPriority` (syncrep.c).  Note that the C loop
body reads `WalSndCtl->walsnds[i]` — the *loop index* — and not
`walsnds[sync_list[i]]`; the embedding preserves this.
-/
def syncedLsnsLoop (ws : WalSndArray) :
    List Nat → XLogRecPtr × XLogRecPtr → XLogRecPtr × XLogRecPtr
  | [], acc => acc
  | i :: is, (wp, fp) =>
    let walsnd := walsndAt ws i
    syncedLsnsLoop ws is (lsnAccum wp walsnd.write, lsnAccum fp walsnd.flush)

/--
`SyncRepGetSyncedLsnsUsingPriority` (syncrep.c): compute the sync list;
fail unless exactly `wait_num` standbys were listed; then accumulate the
minimum write/flush LSNs over slot indexes `0 .. sync_num-1` (the code's
loop index — not over the slots recorded in `sync_list`).
-/
def SyncRepGetSyncedLsnsUsingPriority (ws : WalSndArray)
    (group : SyncGroupNode) : Option (XLogRecPtr × XLogRecPtr) :=
  let sync_list := SyncRepGetSyncStandbysUsingPriority ws group
  if sync_list.length ≠ group.wait_num then none
  else some (syncedLsnsLoop ws (List.range sync_list.length)
              (InvalidXLogRecPtr, InvalidXLogRecPtr))

end Syncrep

namespace Syncrep

/--
C1: evaluation of the priority-method synced-LSN computation at a
configuration exposing the defect.  Slot 0 (write = flush = 100) is not
a synchronous standby at all (priority 0, not streaming); slot 1
(write = flush = 50, name 1) is the single standby selected into
`sync_list`.  The claim (and the code's own comment) say the result is
the minimum over the sync list, i.e. slot 1's `(50, 50)`; the code
instead returns slot 0's `(100, 100)` because its loop reads
`walsnds[i]` for `i < sync_num` instead of `walsnds[sync_list[i]]`.
The last conjunct shows what the same accumulation yields when actually
run over the recorded sync list.
-/
theorem syncedLsnsPriority_reads_wrong_slots :
    SyncRepGetSyncStandbysUsingPriority
      [⟨7, 2, 0, 100, 100, 0⟩, ⟨8, 3, 1, 50, 50, 1⟩]
      ⟨1, [.named 1]⟩ = [1] ∧
    SyncRepGetSyncedLsnsUsingPriority
      [⟨7, 2, 0, 100, 100, 0⟩, ⟨8, 3, 1, 50, 50, 1⟩]
      ⟨1, [.named 1]⟩ = some (100, 100) ∧
    syncedLsnsLoop
      [⟨7, 2, 0, 100, 100, 0⟩, ⟨8, 3, 1, 50, 50, 1⟩]
      [1] (InvalidXLogRecPtr, InvalidXLogRecPtr) = (50, 50) := by
  decide

end Syncrep

namespace Syncrep

/-!
Spec-side definition of the sync list for claim C2: "the first `wait_num`
standbys from `group.members` that are active; a `*` member admits any
still-unlisted active standby up to `wait_num`".  This pair of functions
follows the spec's words and is compared against the code's
`SyncRepGetSyncStandbysUsingPriority`.
-/

/-- Spec-side `*` branch: admit slot `i` itself whenever it is active and
still unlisted, up to `wait_num`. -/
def specStarLoop (ws : WalSndArray) (wait_num : Nat) :
    List Nat → List Nat → List Nat
  | [], acc => acc
  | i :: is, acc =>
    if acc.length ≥ wait_num then acc
    else if SyncRepStandbyIsSync ws i = true ∧ i ∉ acc then
      specStarLoop ws wait_num is (acc ++ [i])
    else specStarLoop ws wait_num is acc

/-- Spec-side member loop; identical to the code's except in the `*`
branch. -/
def specSyncStandbysLoop (ws : WalSndArray) (wait_num : Nat) :
    List SyncGroupMember → List Nat → List Nat
  | [], acc => acc
  | m :: rest, acc =>
    if acc.length ≥ wait_num then acc
    else
      match m with
      | .named n =>
        match SyncRepFindWalSenderByName ws n with
        | none => specSyncStandbysLoop ws wait_num rest acc
        | some pos => specSyncStandbysLoop ws wait_num rest (acc ++ [pos])
      | .star =>
        specSyncStandbysLoop ws wait_num rest
          (specStarLoop ws wait_num (List.range ws.length) acc)

/-- Spec-side sync list of a group. -/
def specGetSyncStandbysPriority (ws : WalSndArray)
    (group : SyncGroupNode) : List Nat :=
  specSyncStandbysLoop ws group.wait_num group.members []

/-- No two active synchronous standbys share an application name
(decidable, bounded check over the wal-sender array). -/
def syncNamesDistinct (ws : WalSndArray) : Bool :=
  (List.range ws.length).all fun i =>
    (List.range ws.length).all fun j =>
      !(SyncRepStandbyIsSync ws i && SyncRepStandbyIsSync ws j &&
        ((walsndAt ws i).name == (walsndAt ws j).name)) || (i == j)

/-- Propositional form of `syncNamesDistinct`. -/
theorem syncNamesDistinct_spec {ws : WalSndArray}
    (h : syncNamesDistinct ws = true) :
    ∀ i j, i < ws.length → j < ws.length →
      SyncRepStandbyIsSync ws i = true → SyncRepStandbyIsSync ws j = true →
      (walsndAt ws i).name = (walsndAt ws j).name → i = j := by
  intro i j hi hj hsi hsj hname
  rw [syncNamesDistinct, List.all_eq_true] at h
  have h1 := h i (List.mem_range.mpr hi)
  rw [List.all_eq_true] at h1
  have h2 := h1 j (List.mem_range.mpr hj)
  simp only [hsi, hsj, hname, Bool.and_self, beq_self_eq_true, Bool.and_true,
    Bool.not_true, Bool.false_or, beq_iff_eq] at h2
  exact h2

/-- Under distinct names, looking an active slot up by its own name finds
that very slot. -/
theorem find_by_own_name {ws : WalSndArray} {i : Nat}
    (hdist : syncNamesDistinct ws = true)
    (hi : i < ws.length)
    (hs : SyncRepStandbyIsSync ws i = true) :
    SyncRepFindWalSenderByName ws (walsndAt ws i).name = some i := by
  have hp : (SyncRepStandbyIsSync ws i &&
      ((walsndAt ws i).name == (walsndAt ws i).name)) = true := by
    simp [hs]
  have hsome : (SyncRepFindWalSenderByName ws (walsndAt ws i).name).isSome := by
    rw [SyncRepFindWalSenderByName, List.find?_isSome]
    exact ⟨i, List.mem_range.mpr hi, hp⟩
  obtain ⟨r, hr⟩ := Option.isSome_iff_exists.mp hsome
  have hpr := List.find?_some hr
  have hrmem := List.mem_of_find?_eq_some hr
  rw [Bool.and_eq_true, beq_iff_eq] at hpr
  have hreq : r = i :=
    syncNamesDistinct_spec hdist r i (List.mem_range.mp hrmem) hi
      hpr.1 hs hpr.2
  rw [hr, hreq]


/-- Under distinct names the code's `*` loop and the spec's `*` loop
agree. -/
theorem starLoop_eq_spec {ws : WalSndArray} {wait_num : Nat}
    (hdist : syncNamesDistinct ws = true) :
    ∀ is acc, (∀ j ∈ is, j < ws.length) →
      starLoop ws wait_num is acc = specStarLoop ws wait_num is acc := by
  intro is
  induction is with
  | nil => intro acc _; rfl
  | cons i is ih =>
    intro acc hlt
    have hi : i < ws.length := hlt i (by simp)
    have hrest : ∀ j ∈ is, j < ws.length := fun j hj => hlt j (by simp [hj])
    by_cases hfull : acc.length ≥ wait_num
    · simp [starLoop, specStarLoop, hfull]
    · by_cases hs : SyncRepStandbyIsSync ws i = true
      · have hfind := find_by_own_name hdist hi hs
        by_cases hmem : i ∈ acc
        · simp [starLoop, specStarLoop, hfull, hs, hfind, hmem, ih _ hrest]
        · simp [starLoop, specStarLoop, hfull, hs, hfind, hmem, ih _ hrest]
      · simp [starLoop, specStarLoop, hfull, hs, ih _ hrest]

/-- Under distinct names the code's member loop and the spec's member
loop agree. -/
theorem syncStandbysLoop_eq_spec {ws : WalSndArray} {wait_num : Nat}
    (hdist : syncNamesDistinct ws = true) :
    ∀ ms acc, syncStandbysLoop ws wait_num ms acc =
      specSyncStandbysLoop ws wait_num ms acc := by
  intro ms
  induction ms with
  | nil => intro acc; rfl
  | cons m rest ih =>
    intro acc
    by_cases hfull : acc.length ≥ wait_num
    · simp [syncStandbysLoop, specSyncStandbysLoop, hfull]
    · match m with
      | .named n =>
        cases hfind : SyncRepFindWalSenderByName ws n with
        | none => simp [syncStandbysLoop, specSyncStandbysLoop, hfull, hfind, ih]
        | some pos => simp [syncStandbysLoop, specSyncStandbysLoop, hfull, hfind, ih]
      | .star =>
        have hstar := @starLoop_eq_spec ws wait_num hdist
          (List.range ws.length) acc (fun j hj => List.mem_range.mp hj)
        simp [syncStandbysLoop, specSyncStandbysLoop, hfull, hstar, ih]

/-- The `*` loop never lists more than `wait_num` standbys. -/
theorem starLoop_length_le {ws : WalSndArray} {wait_num : Nat} :
    ∀ is acc, acc.length ≤ wait_num →
      (starLoop ws wait_num is acc).length ≤ wait_num := by
  intro is
  induction is with
  | nil => intro acc h; exact h
  | cons i is ih =>
    intro acc h
    by_cases hfull : acc.length ≥ wait_num
    · simpa [starLoop, hfull] using h
    · by_cases hs : SyncRepStandbyIsSync ws i = true
      · cases hfind : SyncRepFindWalSenderByName ws (walsndAt ws i).name with
        | none => simpa [starLoop, hfull, hs, hfind] using ih acc h
        | some pos =>
          by_cases hmem : pos ∈ acc
          · simpa [starLoop, hfull, hs, hfind, hmem] using ih acc h
          · have : (acc ++ [pos]).length ≤ wait_num := by
              simp only [List.length_append, List.length_singleton]
              omega
            simpa [starLoop, hfull, hs, hfind, hmem] using ih _ this
      · simpa [starLoop, hfull, hs] using ih acc h

/-- The member loop never lists more than `wait_num` standbys. -/
theorem syncStandbysLoop_length_le {ws : WalSndArray} {wait_num : Nat} :
    ∀ ms acc, acc.length ≤ wait_num →
      (syncStandbysLoop ws wait_num ms acc).length ≤ wait_num := by
  intro ms
  induction ms with
  | nil => intro acc h; exact h
  | cons m rest ih =>
    intro acc h
    by_cases hfull : acc.length ≥ wait_num
    · simpa [syncStandbysLoop, hfull] using h
    · match m with
      | .named n =>
        cases hfind : SyncRepFindWalSenderByName ws n with
        | none => simpa [syncStandbysLoop, hfull, hfind] using ih acc h
        | some pos =>
          have : (acc ++ [pos]).length ≤ wait_num := by
            simp only [List.length_append, List.length_singleton]
            omega
          simpa [syncStandbysLoop, hfull, hfind] using ih _ this
      | .star =>
        have hs := @starLoop_length_le ws wait_num
          (List.range ws.length) acc h
        simpa [syncStandbysLoop, hfull] using ih _ hs


/--
C2 (amended): provided no two active synchronous standbys share an
application name, the sync list computed by
`SyncRepGetSyncStandbysUsingPriority` is exactly the first `wait_num`
active standbys of the member list in the spec's sense — a named member
contributes the active standby of that name, a `*` member admits any
still-unlisted active standby — and the priority-method evaluation
returns none exactly when this list falls short of `wait_num`.
-/
theorem getSyncStandbysPriority_spec (ws : WalSndArray) (g : SyncGroupNode)
    (hdist : syncNamesDistinct ws = true) :
    SyncRepGetSyncStandbysUsingPriority ws g =
      specGetSyncStandbysPriority ws g ∧
    (SyncRepGetSyncedLsnsUsingPriority ws g = none ↔
      (specGetSyncStandbysPriority ws g).length < g.wait_num) := by
  have heq : SyncRepGetSyncStandbysUsingPriority ws g =
      specGetSyncStandbysPriority ws g :=
    syncStandbysLoop_eq_spec hdist g.members []
  refine ⟨heq, ?_⟩
  have hle : (SyncRepGetSyncStandbysUsingPriority ws g).length ≤ g.wait_num :=
    syncStandbysLoop_length_le g.members [] (Nat.zero_le _)
  rw [SyncRepGetSyncedLsnsUsingPriority, ← heq]
  by_cases h : (SyncRepGetSyncStandbysUsingPriority ws g).length = g.wait_num
  · simp [h, lt_self_iff_false]
  · simp only [h, ne_eq, not_false_eq_true, if_true]
    simp only [true_iff]
    exact Nat.lt_of_le_of_ne hle h

/--
C2 counterexample: two active synchronous standbys (slots 0 and 1, both
streaming with priority 1 and valid flush positions) share an
application name, with `synchronous_standby_names = '*'` and
`wait_num = 2`.  Both standbys are active, so by the claim the sync list
should be `[0, 1]` and the evaluation should succeed — but the code's
`*` branch looks slot 1 up *by name*, finds the already-listed slot 0,
skips slot 1, lists only one standby, and the evaluation returns none.
-/
theorem getSyncStandbysPriority_counterexample :
    specGetSyncStandbysPriority
      [⟨7, 3, 1, 10, 10, 0⟩, ⟨8, 3, 1, 20, 20, 0⟩] ⟨2, [.star]⟩ = [0, 1] ∧
    SyncRepGetSyncStandbysUsingPriority
      [⟨7, 3, 1, 10, 10, 0⟩, ⟨8, 3, 1, 20, 20, 0⟩] ⟨2, [.star]⟩ = [0] ∧
    SyncRepGetSyncedLsnsUsingPriority
      [⟨7, 3, 1, 10, 10, 0⟩, ⟨8, 3, 1, 20, 20, 0⟩] ⟨2, [.star]⟩ = none := by
  decide

/--
C2 witness: the amended theorem applied to two active standbys with
distinct names under `synchronous_standby_names = '*'`, `wait_num = 2`.
-/
theorem getSyncStandbysPriority_spec_witness :
    syncNamesDistinct [⟨7, 3, 1, 10, 15, 0⟩, ⟨8, 3, 2, 20, 25, 1⟩] = true ∧
    (SyncRepGetSyncStandbysUsingPriority
        [⟨7, 3, 1, 10, 15, 0⟩, ⟨8, 3, 2, 20, 25, 1⟩] ⟨2, [.star]⟩ =
      specGetSyncStandbysPriority
        [⟨7, 3, 1, 10, 15, 0⟩, ⟨8, 3, 2, 20, 25, 1⟩] ⟨2, [.star]⟩ ∧
    (SyncRepGetSyncedLsnsUsingPriority
        [⟨7, 3, 1, 10, 15, 0⟩, ⟨8, 3, 2, 20, 25, 1⟩] ⟨2, [.star]⟩ = none ↔
      (specGetSyncStandbysPriority
        [⟨7, 3, 1, 10, 15, 0⟩, ⟨8, 3, 2, 20, 25, 1⟩] ⟨2, [.star]⟩).length < 2)) :=
  ⟨by decide,
   getSyncStandbysPriority_spec
     [⟨7, 3, 1, 10, 15, 0⟩, ⟨8, 3, 2, 20, 25, 1⟩] ⟨2, [.star]⟩ (by decide)⟩

end Syncrep

namespace Syncrep

/-! ## Waking and releasing waiters (claims C4, C9, C10) -/

/--
The shared-memory operations a wal sender performs on one waiting
backend inside `SyncRepWakeQueue` (syncrep.c), in program order:
`thisproc->syncRepState = ...`, `SHMQueueDelete(&thisproc->syncRepLinks)`,
`SetLatch(&thisproc->procLatch)`.
-/
inductive WakeEvent
  | setState (pid : Nat) (st : Nat)
  | detach (pid : Nat)
  | setLatch (pid : Nat)
  deriving Repr, DecidableEq

/-- The backend a wake event acts on. -/
def eventPid : WakeEvent → Nat
  | .setState pid _ => pid
  | .detach pid => pid
  | .setLatch pid => pid

/--
`SyncRepWakeQueue(all, mode)` (syncrep.c): walk the queue from the head;
unless `all` is set, stop at the first node whose `waitLSN` exceeds the
advertised LSN `lsn` (`walsndctl->lsn[mode]`); transition every node
before that point to `SYNC_REP_WAIT_COMPLETE`, remove it from the queue,
and set its latch.  Returns (released procs in wake order, remaining
queue, shared-memory events in program order); the C return value
`numprocs` is the length of the first component.
-/
def SyncRepWakeQueue (all : Bool) (lsn : XLogRecPtr) :
    List SRProc → List SRProc × List SRProc × List WakeEvent
  | [] => ([], [], [])
  | p :: rest =>
    if all = false ∧ lsn < p.waitLSN then ([], p :: rest, [])
    else
      let r := SyncRepWakeQueue all lsn rest
      ({ p with syncRepState := SYNC_REP_WAIT_COMPLETE } :: r.1, r.2.1,
        .setState p.pid SYNC_REP_WAIT_COMPLETE :: .detach p.pid ::
          .setLatch p.pid :: r.2.2)

/--
The per-mode shared state `SyncRepReleaseWaiters` operates on: the two
advertised LSNs `WalSndCtl->lsn[SYNC_REP_WAIT_WRITE / _FLUSH]` and the
two wait queues.
-/
structure WalSndCtlState where
  lsn_write : XLogRecPtr
  lsn_flush : XLogRecPtr
  queue_write : List SRProc
  queue_flush : List SRProc
  deriving Repr, DecidableEq

/--
`SyncRepSyncedLsnAdvancedTo` (syncrep.c): ask the group's
`SyncRepGetSyncedLsnsFn` (the priority method is the only method in this
tree) for the safe LSNs; fail when it does; otherwise hand back, for each
mode, the safe LSN when this wal sender's own position has reached it and
`InvalidXLogRecPtr` (the caller's initialisation) when it has not.
-/
def SyncRepSyncedLsnAdvancedTo (ws : WalSndArray) (group : SyncGroupNode)
    (my : WalSnd) : Option (XLogRecPtr × XLogRecPtr) :=
  match SyncRepGetSyncedLsnsUsingPriority ws group with
  | none => none
  | some (safe_write_pos, safe_flush_pos) =>
    some ((if my.write ≥ safe_write_pos then safe_write_pos
           else InvalidXLogRecPtr),
          (if my.flush ≥ safe_flush_pos then safe_flush_pos
           else InvalidXLogRecPtr))

/--
The per-mode body of `SyncRepReleaseWaiters` (syncrep.c): when the
position handed back by `SyncRepSyncedLsnAdvancedTo` exceeds the
advertised LSN `lsn` of this mode, store the new advertised LSN first and
then wake the mode's queue up to it.  Returns (advertised LSN, queue,
released waiters) after the call.
-/
def releaseMode (lsn pos : XLogRecPtr) (q : List SRProc) :
    XLogRecPtr × List SRProc × List SRProc :=
  if lsn < pos then
    let r := SyncRepWakeQueue false pos q
    (pos, r.2.1, r.1)
  else (lsn, q, [])

/-- Result of one `SyncRepReleaseWaiters` call: the new shared state and
the waiters released from each mode's queue. -/
structure ReleaseResult where
  ctl : WalSndCtlState
  released_write : List SRProc
  released_flush : List SRProc
  deriving Repr, DecidableEq

/--
`SyncRepReleaseWaiters` (syncrep.c): leave immediately when this wal
sender has priority 0, is not yet streaming, or has no valid flush
position, or when `SyncRepSyncedLsnAdvancedTo` fails; otherwise, for
each mode whose returned position exceeds the advertised LSN, store the
new advertised LSN first and then wake that mode's queue up to it.
-/
def SyncRepReleaseWaiters (ws : WalSndArray) (group : SyncGroupNode)
    (my : WalSnd) (ctl : WalSndCtlState) : ReleaseResult :=
  if my.sync_standby_priority = 0 ∨ my.state < WALSNDSTATE_STREAMING ∨
      XLogRecPtrIsInvalid my.flush = true then
    ⟨ctl, [], []⟩
  else
    match SyncRepSyncedLsnAdvancedTo ws group my with
    | none => ⟨ctl, [], []⟩
    | some (write_pos, flush_pos) =>
      let stepw := releaseMode ctl.lsn_write write_pos ctl.queue_write
      let stepf := releaseMode ctl.lsn_flush flush_pos ctl.queue_flush
      ⟨⟨stepw.1, stepf.1, stepw.2.1, stepf.2.1⟩, stepw.2.2, stepf.2.2⟩

end Syncrep

namespace Syncrep

/-- One-step unfolding of the wake pass on a nonempty queue that stops at
the head node. -/
theorem wakeQueue_cons_stop {all : Bool} {lsn : XLogRecPtr} {p : SRProc}
    {rest : List SRProc} (h : all = false ∧ lsn < p.waitLSN) :
    SyncRepWakeQueue all lsn (p :: rest) = ([], p :: rest, []) := by
  rw [SyncRepWakeQueue, if_pos h]

/-- One-step unfolding of the wake pass on a nonempty queue that wakes
the head node. -/
theorem wakeQueue_cons_wake {all : Bool} {lsn : XLogRecPtr} {p : SRProc}
    {rest : List SRProc} (h : ¬ (all = false ∧ lsn < p.waitLSN)) :
    SyncRepWakeQueue all lsn (p :: rest) =
      ({ p with syncRepState := SYNC_REP_WAIT_COMPLETE } ::
         (SyncRepWakeQueue all lsn rest).1,
       (SyncRepWakeQueue all lsn rest).2.1,
       .setState p.pid SYNC_REP_WAIT_COMPLETE :: .detach p.pid ::
         .setLatch p.pid :: (SyncRepWakeQueue all lsn rest).2.2) := by
  rw [SyncRepWakeQueue, if_neg h]

/-- Every waiter released by a non-`all` wake pass has `waitLSN` at most
the advertised LSN passed to the pass. -/
theorem wakeQueue_released_le {lsn : XLogRecPtr} :
    ∀ q : List SRProc, ∀ p ∈ (SyncRepWakeQueue false lsn q).1,
      p.waitLSN ≤ lsn := by
  intro q
  induction q with
  | nil => simp [SyncRepWakeQueue]
  | cons p rest ih =>
    by_cases hc : lsn < p.waitLSN
    · rw [wakeQueue_cons_stop ⟨rfl, hc⟩]
      simp
    · intro x hx
      rw [wakeQueue_cons_wake (by simp [hc])] at hx
      rcases List.mem_cons.mp hx with rfl | hx'
      · exact Nat.not_lt.mp hc
      · exact ih x hx'

/-- A wake pass splits the queue: the pids of the released waiters
followed by the pids of the remaining queue are the pids of the input
queue. -/
theorem wakeQueue_pid_partition (all : Bool) (lsn : XLogRecPtr) :
    ∀ q : List SRProc,
      (SyncRepWakeQueue all lsn q).1.map SRProc.pid ++
        (SyncRepWakeQueue all lsn q).2.1.map SRProc.pid =
      q.map SRProc.pid := by
  intro q
  induction q with
  | nil => simp [SyncRepWakeQueue]
  | cons p rest ih =>
    by_cases hc : all = false ∧ lsn < p.waitLSN
    · rw [wakeQueue_cons_stop hc]
      simp
    · rw [wakeQueue_cons_wake hc]
      simpa using ih

/-- Every waiter released by a wake pass has been transitioned to
`SYNC_REP_WAIT_COMPLETE`. -/
theorem wakeQueue_released_state (all : Bool) (lsn : XLogRecPtr) :
    ∀ q : List SRProc, ∀ p ∈ (SyncRepWakeQueue all lsn q).1,
      p.syncRepState = SYNC_REP_WAIT_COMPLETE := by
  intro q
  induction q with
  | nil => simp [SyncRepWakeQueue]
  | cons p rest ih =>
    by_cases hc : all = false ∧ lsn < p.waitLSN
    · rw [wakeQueue_cons_stop hc]
      simp
    · intro x hx
      rw [wakeQueue_cons_wake hc] at hx
      rcases List.mem_cons.mp hx with rfl | hx'
      · rfl
      · exact ih x hx'

/-- The shared-memory events of a wake pass are exactly, for each
released waiter in wake order, its state transition, then its queue
removal, then its latch set. -/
theorem wakeQueue_events_join (all : Bool) (lsn : XLogRecPtr) :
    ∀ q : List SRProc,
      (SyncRepWakeQueue all lsn q).2.2 =
        ((SyncRepWakeQueue all lsn q).1.map fun p =>
          [WakeEvent.setState p.pid SYNC_REP_WAIT_COMPLETE,
           WakeEvent.detach p.pid, WakeEvent.setLatch p.pid]).flatten := by
  intro q
  induction q with
  | nil => simp [SyncRepWakeQueue]
  | cons p rest ih =>
    by_cases hc : all = false ∧ lsn < p.waitLSN
    · rw [wakeQueue_cons_stop hc]
      simp
    · rw [wakeQueue_cons_wake hc]
      simp only [List.map_cons, List.flatten_cons]
      rw [ih]
      rfl

/-- Every event of a wake pass acts on a pid present in the input
queue. -/
theorem wakeQueue_events_pid (all : Bool) (lsn : XLogRecPtr) :
    ∀ q : List SRProc, ∀ e ∈ (SyncRepWakeQueue all lsn q).2.2,
      eventPid e ∈ q.map SRProc.pid := by
  intro q
  induction q with
  | nil => simp [SyncRepWakeQueue]
  | cons p rest ih =>
    by_cases hc : all = false ∧ lsn < p.waitLSN
    · rw [wakeQueue_cons_stop hc]
      simp
    · intro e he
      rw [wakeQueue_cons_wake hc] at he
      rcases List.mem_cons.mp he with rfl | he'
      · simp [eventPid]
      · rcases List.mem_cons.mp he' with rfl | he'' 
        · simp [eventPid]
        · rcases List.mem_cons.mp he'' with rfl | he3
          · simp [eventPid]
          · simp only [List.map_cons, List.mem_cons]
            exact Or.inr (ih e he3)

end Syncrep

namespace Syncrep

/-- The advertised LSN of a mode never moves backward in `releaseMode`. -/
theorem releaseMode_lsn_ge (lsn pos : XLogRecPtr) (q : List SRProc) :
    lsn ≤ (releaseMode lsn pos q).1 := by
  by_cases h : lsn < pos
  · rw [releaseMode, if_pos h]
    exact Nat.le_of_lt h
  · rw [releaseMode, if_neg h]

/-- The advertised LSN of a mode never moves past the position handed to
`releaseMode`. -/
theorem releaseMode_lsn_le_max (lsn pos : XLogRecPtr) (q : List SRProc) :
    (releaseMode lsn pos q).1 ≤ max lsn pos := by
  by_cases h : lsn < pos
  · rw [releaseMode, if_pos h]
    exact Nat.le_max_right _ _
  · rw [releaseMode, if_neg h]
    exact Nat.le_max_left _ _

/-- Every waiter `releaseMode` releases has `waitLSN` at most the new
advertised LSN of its mode. -/
theorem releaseMode_released_le (lsn pos : XLogRecPtr) (q : List SRProc) :
    ∀ p ∈ (releaseMode lsn pos q).2.2,
      p.waitLSN ≤ (releaseMode lsn pos q).1 := by
  by_cases h : lsn < pos
  · rw [releaseMode, if_pos h]
    exact wakeQueue_released_le q
  · rw [releaseMode, if_neg h]
    simp

/-- The positions handed back by `SyncRepSyncedLsnAdvancedTo` are either
the untouched `InvalidXLogRecPtr` initialisation or positions this wal
sender has itself reached. -/
theorem advancedTo_le {ws : WalSndArray} {group : SyncGroupNode}
    {my : WalSnd} {wp fp : XLogRecPtr}
    (h : SyncRepSyncedLsnAdvancedTo ws group my = some (wp, fp)) :
    (wp = InvalidXLogRecPtr ∨ wp ≤ my.write) ∧
    (fp = InvalidXLogRecPtr ∨ fp ≤ my.flush) := by
  rw [SyncRepSyncedLsnAdvancedTo] at h
  cases hg : SyncRepGetSyncedLsnsUsingPriority ws group with
  | none =>
    rw [hg] at h
    exact absurd h (by simp)
  | some sp =>
    obtain ⟨sw, sf⟩ := sp
    rw [hg] at h
    have hp : ((if my.write ≥ sw then sw else InvalidXLogRecPtr),
        (if my.flush ≥ sf then sf else InvalidXLogRecPtr)) = (wp, fp) :=
      Option.some_injective _ h
    have h1 := congrArg Prod.fst hp
    have h2 := congrArg Prod.snd hp
    simp only at h1 h2
    constructor
    · by_cases hcw : my.write ≥ sw
      · rw [if_pos hcw] at h1
        exact Or.inr (h1 ▸ hcw)
      · rw [if_neg hcw] at h1
        exact Or.inl h1.symm
    · by_cases hcf : my.flush ≥ sf
      · rw [if_pos hcf] at h2
        exact Or.inr (h2 ▸ hcf)
      · rw [if_neg hcf] at h2
        exact Or.inl h2.symm

/-- `SyncRepReleaseWaiters` either leaves the state untouched and
releases nobody, or performs the two per-mode passes with positions this
wal sender has itself reached (when they are not left invalid). -/
theorem releaseWaiters_cases (ws : WalSndArray) (group : SyncGroupNode)
    (my : WalSnd) (ctl : WalSndCtlState) :
    SyncRepReleaseWaiters ws group my ctl = ⟨ctl, [], []⟩ ∨
    ∃ wp fp, SyncRepSyncedLsnAdvancedTo ws group my = some (wp, fp) ∧
      (wp = InvalidXLogRecPtr ∨ wp ≤ my.write) ∧
      (fp = InvalidXLogRecPtr ∨ fp ≤ my.flush) ∧
      SyncRepReleaseWaiters ws group my ctl =
        ⟨⟨(releaseMode ctl.lsn_write wp ctl.queue_write).1,
          (releaseMode ctl.lsn_flush fp ctl.queue_flush).1,
          (releaseMode ctl.lsn_write wp ctl.queue_write).2.1,
          (releaseMode ctl.lsn_flush fp ctl.queue_flush).2.1⟩,
         (releaseMode ctl.lsn_write wp ctl.queue_write).2.2,
         (releaseMode ctl.lsn_flush fp ctl.queue_flush).2.2⟩ := by
  rw [SyncRepReleaseWaiters]
  by_cases hg : my.sync_standby_priority = 0 ∨
      my.state < WALSNDSTATE_STREAMING ∨ XLogRecPtrIsInvalid my.flush = true
  · rw [if_pos hg]
    exact Or.inl rfl
  · rw [if_neg hg]
    cases hadv : SyncRepSyncedLsnAdvancedTo ws group my with
    | none => exact Or.inl rfl
    | some wf =>
      obtain ⟨wp, fp⟩ := wf
      have hle := advancedTo_le hadv
      exact Or.inr ⟨wp, fp, rfl, hle.1, hle.2, rfl⟩

end Syncrep

namespace Syncrep

/--
C4: in every execution of `SyncRepReleaseWaiters`, every waiter released
from the write (resp. flush) queue has `waitLSN` at most the advertised
LSN of that mode after the call (the advertised LSN in force when the
queue was woken), and the advertised LSN of each mode never moves
backward and is never advanced past the calling wal sender's own
`write` (resp. `flush`) position.
-/
theorem syncRepReleaseWaiters_safe (ws : WalSndArray) (group : SyncGroupNode)
    (my : WalSnd) (ctl : WalSndCtlState) :
    (∀ p ∈ (SyncRepReleaseWaiters ws group my ctl).released_write,
        p.waitLSN ≤ (SyncRepReleaseWaiters ws group my ctl).ctl.lsn_write) ∧
    (∀ p ∈ (SyncRepReleaseWaiters ws group my ctl).released_flush,
        p.waitLSN ≤ (SyncRepReleaseWaiters ws group my ctl).ctl.lsn_flush) ∧
    ctl.lsn_write ≤ (SyncRepReleaseWaiters ws group my ctl).ctl.lsn_write ∧
    (SyncRepReleaseWaiters ws group my ctl).ctl.lsn_write ≤
      max ctl.lsn_write my.write ∧
    ctl.lsn_flush ≤ (SyncRepReleaseWaiters ws group my ctl).ctl.lsn_flush ∧
    (SyncRepReleaseWaiters ws group my ctl).ctl.lsn_flush ≤
      max ctl.lsn_flush my.flush := by
  rcases releaseWaiters_cases ws group my ctl with
    heq | ⟨wp, fp, -, hwle, hfle, heq⟩
  · rw [heq]
    exact ⟨by simp, by simp, Nat.le_refl _, Nat.le_max_left _ _,
      Nat.le_refl _, Nat.le_max_left _ _⟩
  · rw [heq]
    refine ⟨releaseMode_released_le _ _ _, releaseMode_released_le _ _ _,
      releaseMode_lsn_ge _ _ _, ?_, releaseMode_lsn_ge _ _ _, ?_⟩
    · rcases hwle with rfl | hle
      · calc (releaseMode ctl.lsn_write InvalidXLogRecPtr ctl.queue_write).1
            ≤ max ctl.lsn_write InvalidXLogRecPtr :=
              releaseMode_lsn_le_max _ _ _
          _ = ctl.lsn_write := by simp [InvalidXLogRecPtr]
          _ ≤ max ctl.lsn_write my.write := Nat.le_max_left _ _
      · exact le_trans (releaseMode_lsn_le_max _ _ _)
          (max_le_max (le_refl _) hle)
    · rcases hfle with rfl | hle
      · calc (releaseMode ctl.lsn_flush InvalidXLogRecPtr ctl.queue_flush).1
            ≤ max ctl.lsn_flush InvalidXLogRecPtr :=
              releaseMode_lsn_le_max _ _ _
          _ = ctl.lsn_flush := by simp [InvalidXLogRecPtr]
          _ ≤ max ctl.lsn_flush my.flush := Nat.le_max_left _ _
      · exact le_trans (releaseMode_lsn_le_max _ _ _)
          (max_le_max (le_refl _) hle)

/--
C4 witness: the release-safety theorem applied to one sync standby at
write = flush = 60, advertised LSNs 10, a write queue holding waiters at
LSNs 50 and 70 and a flush queue holding a waiter at LSN 55.
-/
theorem syncRepReleaseWaiters_safe_witness :
    (∀ p ∈ (SyncRepReleaseWaiters [⟨8, 3, 1, 60, 60, 1⟩] ⟨1, [.named 1]⟩
        ⟨8, 3, 1, 60, 60, 1⟩
        ⟨10, 10, [⟨1, 50, 1⟩, ⟨2, 70, 1⟩], [⟨3, 55, 1⟩]⟩).released_write,
      p.waitLSN ≤ (SyncRepReleaseWaiters [⟨8, 3, 1, 60, 60, 1⟩]
        ⟨1, [.named 1]⟩ ⟨8, 3, 1, 60, 60, 1⟩
        ⟨10, 10, [⟨1, 50, 1⟩, ⟨2, 70, 1⟩], [⟨3, 55, 1⟩]⟩).ctl.lsn_write) ∧
    (∀ p ∈ (SyncRepReleaseWaiters [⟨8, 3, 1, 60, 60, 1⟩] ⟨1, [.named 1]⟩
        ⟨8, 3, 1, 60, 60, 1⟩
        ⟨10, 10, [⟨1, 50, 1⟩, ⟨2, 70, 1⟩], [⟨3, 55, 1⟩]⟩).released_flush,
      p.waitLSN ≤ (SyncRepReleaseWaiters [⟨8, 3, 1, 60, 60, 1⟩]
        ⟨1, [.named 1]⟩ ⟨8, 3, 1, 60, 60, 1⟩
        ⟨10, 10, [⟨1, 50, 1⟩, ⟨2, 70, 1⟩], [⟨3, 55, 1⟩]⟩).ctl.lsn_flush) ∧
    (10 : Nat) ≤ (SyncRepReleaseWaiters [⟨8, 3, 1, 60, 60, 1⟩]
        ⟨1, [.named 1]⟩ ⟨8, 3, 1, 60, 60, 1⟩
        ⟨10, 10, [⟨1, 50, 1⟩, ⟨2, 70, 1⟩], [⟨3, 55, 1⟩]⟩).ctl.lsn_write ∧
    (SyncRepReleaseWaiters [⟨8, 3, 1, 60, 60, 1⟩]
        ⟨1, [.named 1]⟩ ⟨8, 3, 1, 60, 60, 1⟩
        ⟨10, 10, [⟨1, 50, 1⟩, ⟨2, 70, 1⟩], [⟨3, 55, 1⟩]⟩).ctl.lsn_write ≤
      max 10 60 ∧
    (10 : Nat) ≤ (SyncRepReleaseWaiters [⟨8, 3, 1, 60, 60, 1⟩]
        ⟨1, [.named 1]⟩ ⟨8, 3, 1, 60, 60, 1⟩
        ⟨10, 10, [⟨1, 50, 1⟩, ⟨2, 70, 1⟩], [⟨3, 55, 1⟩]⟩).ctl.lsn_flush ∧
    (SyncRepReleaseWaiters [⟨8, 3, 1, 60, 60, 1⟩]
        ⟨1, [.named 1]⟩ ⟨8, 3, 1, 60, 60, 1⟩
        ⟨10, 10, [⟨1, 50, 1⟩, ⟨2, 70, 1⟩], [⟨3, 55, 1⟩]⟩).ctl.lsn_flush ≤
      max 10 60 :=
  syncRepReleaseWaiters_safe [⟨8, 3, 1, 60, 60, 1⟩] ⟨1, [.named 1]⟩
    ⟨8, 3, 1, 60, 60, 1⟩ ⟨10, 10, [⟨1, 50, 1⟩, ⟨2, 70, 1⟩], [⟨3, 55, 1⟩]⟩

end Syncrep

namespace Syncrep

/--
C9: for every wake pass over a queue whose backends are distinct, the
shared-memory events are, for each woken backend, exactly its state
transition to `SYNC_REP_WAIT_COMPLETE` followed by its queue removal
followed by its latch set (so the state set and the detach precede the
latch set), every released waiter carries state
`SYNC_REP_WAIT_COMPLETE`, no released backend remains in the queue, and
no later wake pass over the remaining queue — the only place a wal
sender touches a backend's sync-rep state — acts on a released backend
again.
-/
theorem wakeQueue_wake_protocol (all : Bool) (lsn : XLogRecPtr)
    (q : List SRProc) (hnodup : (q.map SRProc.pid).Nodup) :
    (SyncRepWakeQueue all lsn q).2.2 =
      ((SyncRepWakeQueue all lsn q).1.map fun p =>
        [WakeEvent.setState p.pid SYNC_REP_WAIT_COMPLETE,
         WakeEvent.detach p.pid, WakeEvent.setLatch p.pid]).flatten ∧
    (∀ p ∈ (SyncRepWakeQueue all lsn q).1,
      p.syncRepState = SYNC_REP_WAIT_COMPLETE) ∧
    (∀ p ∈ (SyncRepWakeQueue all lsn q).1,
      ∀ r ∈ (SyncRepWakeQueue all lsn q).2.1, p.pid ≠ r.pid) ∧
    (∀ all' : Bool, ∀ lsn' : XLogRecPtr,
      ∀ e ∈ (SyncRepWakeQueue all' lsn'
              (SyncRepWakeQueue all lsn q).2.1).2.2,
      ∀ p ∈ (SyncRepWakeQueue all lsn q).1, eventPid e ≠ p.pid) := by
  have hpart := wakeQueue_pid_partition all lsn q
  have hdisj : ((SyncRepWakeQueue all lsn q).1.map SRProc.pid).Disjoint
      ((SyncRepWakeQueue all lsn q).2.1.map SRProc.pid) := by
    rw [← hpart] at hnodup
    exact List.disjoint_of_nodup_append hnodup
  refine ⟨wakeQueue_events_join all lsn q, wakeQueue_released_state all lsn q,
    ?_, ?_⟩
  · intro p hp r hr hpr
    exact hdisj (List.mem_map_of_mem SRProc.pid hp)
      (hpr ▸ List.mem_map_of_mem SRProc.pid hr)
  · intro all' lsn' e he p hp heq
    have hmem := wakeQueue_events_pid all' lsn' _ e he
    exact hdisj (List.mem_map_of_mem SRProc.pid hp) (heq ▸ hmem)

/--
C9 witness: the wake protocol applied to a non-`all` pass at advertised
LSN 60 over the queue holding backends 1 (LSN 50) and 2 (LSN 70).
-/
theorem wakeQueue_wake_protocol_witness :
    (([⟨1, 50, 1⟩, ⟨2, 70, 1⟩] : List SRProc).map SRProc.pid).Nodup ∧
    ((SyncRepWakeQueue false 60 [⟨1, 50, 1⟩, ⟨2, 70, 1⟩]).2.2 =
      ((SyncRepWakeQueue false 60 [⟨1, 50, 1⟩, ⟨2, 70, 1⟩]).1.map fun p =>
        [WakeEvent.setState p.pid SYNC_REP_WAIT_COMPLETE,
         WakeEvent.detach p.pid, WakeEvent.setLatch p.pid]).flatten ∧
    (∀ p ∈ (SyncRepWakeQueue false 60 [⟨1, 50, 1⟩, ⟨2, 70, 1⟩]).1,
      p.syncRepState = SYNC_REP_WAIT_COMPLETE) ∧
    (∀ p ∈ (SyncRepWakeQueue false 60 [⟨1, 50, 1⟩, ⟨2, 70, 1⟩]).1,
      ∀ r ∈ (SyncRepWakeQueue false 60 [⟨1, 50, 1⟩, ⟨2, 70, 1⟩]).2.1,
        p.pid ≠ r.pid) ∧
    (∀ all' : Bool, ∀ lsn' : XLogRecPtr,
      ∀ e ∈ (SyncRepWakeQueue all' lsn'
              (SyncRepWakeQueue false 60 [⟨1, 50, 1⟩, ⟨2, 70, 1⟩]).2.1).2.2,
      ∀ p ∈ (SyncRepWakeQueue false 60 [⟨1, 50, 1⟩, ⟨2, 70, 1⟩]).1,
        eventPid e ≠ p.pid)) :=
  ⟨by decide, wakeQueue_wake_protocol false 60 [⟨1, 50, 1⟩, ⟨2, 70, 1⟩]
    (by decide)⟩

end Syncrep

namespace Syncrep

/-! ## Standby priority (claim C10) -/

/--
The member walk of `SyncRepGetStandbyPriority` (syncrep.c): increment
`priority` for each member; stop (found) at the first member whose name
matches this wal sender's `application_name` or is the wildcard `*`.
Returns the priority on a match and `none` when the walk falls off the
list (C variable `found` stays false).
-/
def standbyPriorityLoop (application_name : Nat) :
    List SyncGroupMember → Nat → Option Nat
  | [], _ => none
  | m :: rest, priority =>
    match m with
    | .star => some (priority + 1)
    | .named n =>
      if n = application_name then some (priority + 1)
      else standbyPriorityLoop application_name rest (priority + 1)

/--
`SyncRepGetStandbyPriority` (syncrep.c): a cascading wal sender always
gets priority 0; otherwise, when standby names are defined, the position
of the first matching member (or wildcard), and 0 when nothing matches
or no names are defined.
-/
def SyncRepGetStandbyPriority (am_cascading_walsender : Bool)
    (standbys_defined : Bool) (members : List SyncGroupMember)
    (application_name : Nat) : Nat :=
  if am_cascading_walsender then 0
  else if standbys_defined then
    match standbyPriorityLoop application_name members 0 with
    | some priority => priority
    | none => 0
  else 0

/--
C10: a cascading wal sender is assigned synchronous-standby priority 0
whatever the configured member list, the defined flag and its
application name are; and any wal sender whose `sync_standby_priority`
is 0 returns from `SyncRepReleaseWaiters` leaving the advertised LSNs
and both queues untouched and releasing no waiter.
-/
theorem cascading_walsender_never_sync :
    (∀ (standbys_defined : Bool) (members : List SyncGroupMember)
        (application_name : Nat),
      SyncRepGetStandbyPriority true standbys_defined members
        application_name = 0) ∧
    (∀ (ws : WalSndArray) (group : SyncGroupNode) (my : WalSnd)
        (ctl : WalSndCtlState), my.sync_standby_priority = 0 →
      SyncRepReleaseWaiters ws group my ctl = ⟨ctl, [], []⟩) := by
  constructor
  · intro standbys_defined members application_name
    rw [SyncRepGetStandbyPriority, if_pos rfl]
  · intro ws group my ctl h
    rw [SyncRepReleaseWaiters, if_pos (Or.inl h)]

/--
C10 witness: priority of a cascading sender under a config naming it, and
a priority-0 sender releasing nothing from nonempty queues.
-/
theorem cascading_walsender_never_sync_witness :
    SyncRepGetStandbyPriority true true [.named 5, .star] 5 = 0 ∧
    SyncRepReleaseWaiters [⟨8, 3, 1, 60, 60, 1⟩] ⟨1, [.named 1]⟩
      ⟨9, 3, 0, 80, 80, 2⟩ ⟨10, 10, [⟨1, 50, 1⟩], [⟨3, 55, 1⟩]⟩ =
      ⟨⟨10, 10, [⟨1, 50, 1⟩], [⟨3, 55, 1⟩]⟩, [], []⟩ :=
  ⟨cascading_walsender_never_sync.1 true [.named 5, .star] 5,
   cascading_walsender_never_sync.2 [⟨8, 3, 1, 60, 60, 1⟩] ⟨1, [.named 1]⟩
     ⟨9, 3, 0, 80, 80, 2⟩ ⟨10, 10, [⟨1, 50, 1⟩], [⟨3, 55, 1⟩]⟩ rfl⟩

end Syncrep

namespace Syncrep

/-! ## Entering the wait (claim C5) -/

/-- `SYNCHRONOUS_COMMIT_LOCAL_FLUSH` (xact.h enum value 1). -/
def SYNCHRONOUS_COMMIT_LOCAL_FLUSH : Nat := 1

/-- `SYNCHRONOUS_COMMIT_REMOTE_FLUSH` (xact.h enum value 3). -/
def SYNCHRONOUS_COMMIT_REMOTE_FLUSH : Nat := 3

/-- `SyncRepRequested()` (syncrep.h):
`max_wal_senders > 0 && synchronous_commit > SYNCHRONOUS_COMMIT_LOCAL_FLUSH`. -/
def SyncRepRequested (max_wal_senders synchronous_commit : Nat) : Bool :=
  decide (0 < max_wal_senders) &&
    decide (SYNCHRONOUS_COMMIT_LOCAL_FLUSH < synchronous_commit)

/-- The backend-visible outcome of the entry portion of
`SyncRepWaitForLSN`: whether this backend was enqueued, its
`syncRepState` and `waitLSN` afterwards, and the queue of the active
wait mode afterwards. -/
structure WaitEnterResult where
  queued : Bool
  syncRepState : Nat
  waitLSN : XLogRecPtr
  queue : List SRProc
  deriving Repr, DecidableEq

/--
The entry portion of `SyncRepWaitForLSN` (syncrep.c, before the wait
loop): return immediately when sync replication is not requested or no
standby names are configured; return immediately (under the lock) when
the shared `sync_standbys_defined` flag is clear or the commit LSN is
already at or below the advertised LSN of the active mode; otherwise set
`waitLSN`, move to `SYNC_REP_WAITING` and insert into the mode's queue.
`standbys_defined` is the value of the `SyncStandbysDefined()` macro
(the GUC string is set and nonempty) and `lsn_mode` is
`WalSndCtl->lsn[mode]` for the active mode.
-/
def SyncRepWaitForLSNEnter (max_wal_senders synchronous_commit : Nat)
    (standbys_defined sync_standbys_defined : Bool)
    (lsn_mode : XLogRecPtr) (q : List SRProc) (my_pid : Nat)
    (XactCommitLSN : XLogRecPtr) : WaitEnterResult :=
  if SyncRepRequested max_wal_senders synchronous_commit = false ∨
      standbys_defined = false then
    ⟨false, SYNC_REP_NOT_WAITING, 0, q⟩
  else if sync_standbys_defined = false ∨ XactCommitLSN ≤ lsn_mode then
    ⟨false, SYNC_REP_NOT_WAITING, 0, q⟩
  else
    ⟨true, SYNC_REP_WAITING, XactCommitLSN,
      SyncRepQueueInsert q ⟨my_pid, XactCommitLSN, SYNC_REP_WAITING⟩⟩

/--
C5: `SyncRepWaitForLSN` returns immediately — not enqueued, state
`SYNC_REP_NOT_WAITING` — exactly when sync replication is not requested,
no standby names are defined, the shared `sync_standbys_defined` flag is
clear, or the advertised LSN of the active mode is already at or above
the commit LSN; otherwise it enqueues this backend with
`waitLSN = XactCommitLSN` and state `SYNC_REP_WAITING`.
-/
theorem syncRepWaitForLSN_fast_path (max_wal_senders synchronous_commit : Nat)
    (standbys_defined sync_standbys_defined : Bool)
    (lsn_mode : XLogRecPtr) (q : List SRProc) (my_pid : Nat)
    (XactCommitLSN : XLogRecPtr) :
    ((SyncRepRequested max_wal_senders synchronous_commit = false ∨
        standbys_defined = false ∨ sync_standbys_defined = false ∨
        XactCommitLSN ≤ lsn_mode) →
      SyncRepWaitForLSNEnter max_wal_senders synchronous_commit
        standbys_defined sync_standbys_defined lsn_mode q my_pid
        XactCommitLSN = ⟨false, SYNC_REP_NOT_WAITING, 0, q⟩) ∧
    (SyncRepRequested max_wal_senders synchronous_commit = true →
      standbys_defined = true → sync_standbys_defined = true →
      lsn_mode < XactCommitLSN →
      SyncRepWaitForLSNEnter max_wal_senders synchronous_commit
        standbys_defined sync_standbys_defined lsn_mode q my_pid
        XactCommitLSN =
        ⟨true, SYNC_REP_WAITING, XactCommitLSN,
          SyncRepQueueInsert q ⟨my_pid, XactCommitLSN, SYNC_REP_WAITING⟩⟩) := by
  constructor
  · intro h
    rcases h with h | h | h | h
    · rw [SyncRepWaitForLSNEnter, if_pos (Or.inl h)]
    · rw [SyncRepWaitForLSNEnter, if_pos (Or.inr h)]
    · by_cases h1 : SyncRepRequested max_wal_senders synchronous_commit =
          false ∨ standbys_defined = false
      · rw [SyncRepWaitForLSNEnter, if_pos h1]
      · rw [SyncRepWaitForLSNEnter, if_neg h1, if_pos (Or.inl h)]
    · by_cases h1 : SyncRepRequested max_wal_senders synchronous_commit =
          false ∨ standbys_defined = false
      · rw [SyncRepWaitForLSNEnter, if_pos h1]
      · rw [SyncRepWaitForLSNEnter, if_neg h1, if_pos (Or.inr h)]
  · intro h1 h2 h3 h4
    rw [SyncRepWaitForLSNEnter, if_neg (by simp [h1, h2]),
      if_neg (by simp [h3, Nat.not_le.mpr h4])]

/--
C5 witness: one fast-path return (commit LSN 40 already at or below the
advertised LSN 50) and one enqueue (commit LSN 70 above the advertised
LSN 50).
-/
theorem syncRepWaitForLSN_fast_path_witness :
    SyncRepWaitForLSNEnter 3 3 true true 50 [] 1 40 =
      ⟨false, SYNC_REP_NOT_WAITING, 0, []⟩ ∧
    SyncRepWaitForLSNEnter 3 3 true true 50 [] 1 70 =
      ⟨true, SYNC_REP_WAITING, 70,
        SyncRepQueueInsert [] ⟨1, 70, SYNC_REP_WAITING⟩⟩ :=
  ⟨(syncRepWaitForLSN_fast_path 3 3 true true 50 [] 1 40).1
      (Or.inr (Or.inr (Or.inr (by decide)))),
   (syncRepWaitForLSN_fast_path 3 3 true true 50 [] 1 70).2
      (by decide) rfl rfl (by decide)⟩

end Syncrep

namespace Syncrep

/-! ## The wait loop of `SyncRepWaitForLSN` (claim C6)

The loop body reads shared or signal-delivered conditions each
iteration; an environment value per iteration supplies what those reads
observe, and the loop consumes a list of environments (one per
iteration), returning `none` when the list is exhausted with the backend
still waiting. -/

/-- The WARNINGs the wait loop can emit; both carry the errdetail that
the transaction has already committed locally but might not have been
replicated. -/
inductive SyncRepWarning
  | adminShutdownLocalOnly
  | queryCancelLocalOnly
  deriving Repr, DecidableEq

/-- Backend-local state manipulated by the wait loop of
`SyncRepWaitForLSN`: `MyProc->syncRepState`, whether
`MyProc->syncRepLinks` is still linked into the queue, the
`ProcDiePending` / `QueryCancelPending` interrupt flags,
`whereToSendOutput != DestNone`, and the WARNINGs emitted so far. -/
structure BackendWaitState where
  syncRepState : Nat
  queued : Bool
  procDiePending : Bool
  queryCancelPending : Bool
  outputActive : Bool
  warnings : List SyncRepWarning
  deriving Repr, DecidableEq

/-- What one iteration of the wait loop observes: the two unlocked reads
of `MyProc->syncRepState`, whether the queue node is still linked, newly
delivered interrupt flags, and `PostmasterIsAlive()`. -/
structure WaitEnv where
  state1 : Nat
  state2 : Nat
  queuedNow : Bool
  diePending : Bool
  cancelPending : Bool
  postmasterAlive : Bool
  deriving Repr, DecidableEq

/-- The effective state the loop body acts on: the first read, re-read
once when it looked like `SYNC_REP_WAITING` (syncrep.c lines reading
`MyProc->syncRepState` twice). -/
def observedState (e : WaitEnv) : Nat :=
  if e.state1 = SYNC_REP_WAITING then e.state2 else e.state1

/-- Fold the observations of one iteration into the backend state:
shared fields take their currently visible values, and a signal flag
once set stays set until this code clears it. -/
def stepShared (e : WaitEnv) (st : BackendWaitState) : BackendWaitState :=
  { st with
    syncRepState := observedState e
    queued := e.queuedNow
    procDiePending := st.procDiePending || e.diePending
    queryCancelPending := st.queryCancelPending || e.cancelPending }

/-- `SyncRepCancelWait` (syncrep.c): under the lock, unlink the queue
node if it is still linked and reset `syncRepState` to
`SYNC_REP_NOT_WAITING`. -/
def SyncRepCancelWait (st : BackendWaitState) : BackendWaitState :=
  { st with queued := false, syncRepState := SYNC_REP_NOT_WAITING }

/-- The four ways the wait loop of `SyncRepWaitForLSN` can terminate:
its only `break` statements. -/
inductive WaitLoopExit
  | complete
  | procDie
  | queryCancel
  | postmasterDeath
  deriving Repr, DecidableEq

/--
One iteration of the wait loop of `SyncRepWaitForLSN` (syncrep.c):
reset the latch; read the state (twice when it looks like
`SYNC_REP_WAITING`) and break when it is `SYNC_REP_WAIT_COMPLETE`; on
`ProcDiePending` emit the local-only WARNING, shut off output, cancel
the wait and break *without clearing* `ProcDiePending`; on
`QueryCancelPending` clear that flag, emit the local-only WARNING,
cancel the wait and break; on postmaster death set `ProcDiePending`,
shut off output, cancel the wait and break; otherwise wait on the latch
and iterate.
-/
def waitLoopStep (e : WaitEnv) (st : BackendWaitState) :
    Option WaitLoopExit × BackendWaitState :=
  if observedState e = SYNC_REP_WAIT_COMPLETE then
    (some .complete, stepShared e st)
  else if (st.procDiePending || e.diePending) = true then
    (some .procDie, SyncRepCancelWait
      { stepShared e st with
        warnings := (stepShared e st).warnings ++
          [.adminShutdownLocalOnly]
        outputActive := false })
  else if (st.queryCancelPending || e.cancelPending) = true then
    (some .queryCancel, SyncRepCancelWait
      { stepShared e st with
        queryCancelPending := false
        warnings := (stepShared e st).warnings ++ [.queryCancelLocalOnly] })
  else if e.postmasterAlive = false then
    (some .postmasterDeath, SyncRepCancelWait
      { stepShared e st with procDiePending := true, outputActive := false })
  else (none, stepShared e st)

/-- The wait loop over a list of per-iteration observations; `none`
when the observations ran out with the backend still waiting. -/
def syncRepWaitLoop : List WaitEnv → BackendWaitState →
    Option (WaitLoopExit × BackendWaitState)
  | [], _ => none
  | e :: es, st =>
    match waitLoopStep e st with
    | (some ex, st') => some (ex, st')
    | (none, st') => syncRepWaitLoop es st'

/-- The wait loop followed by the cleanup after it (syncrep.c):
`MyProc->syncRepState = SYNC_REP_NOT_WAITING` holds on every return. -/
def SyncRepWaitForLSNFinish (trace : List WaitEnv)
    (st : BackendWaitState) : Option (WaitLoopExit × BackendWaitState) :=
  match syncRepWaitLoop trace st with
  | none => none
  | some (ex, st') =>
    some (ex, { st' with syncRepState := SYNC_REP_NOT_WAITING })

end Syncrep

namespace Syncrep

/-- Postcondition of the bare wait loop: whenever it exits, the queue
node is detached, and on the `ProcDiePending` exit the flag is still
set, the local-only WARNING was emitted, and output is shut off.  The
hypothesis `hws` is the wal-sender protocol of `SyncRepWakeQueue`: a
backend observing `SYNC_REP_WAIT_COMPLETE` has already been detached. -/
theorem syncRepWaitLoop_post :
    ∀ (trace : List WaitEnv) (st : BackendWaitState) (ex : WaitLoopExit)
      (st0 : BackendWaitState),
      (∀ e ∈ trace, observedState e = SYNC_REP_WAIT_COMPLETE →
        e.queuedNow = false) →
      syncRepWaitLoop trace st = some (ex, st0) →
      st0.queued = false ∧
      (ex = .procDie → st0.procDiePending = true ∧
        SyncRepWarning.adminShutdownLocalOnly ∈ st0.warnings ∧
        st0.outputActive = false) := by
  intro trace
  induction trace with
  | nil =>
    intro st ex st0 _ h
    exact absurd h (by simp [syncRepWaitLoop])
  | cons e es ih =>
    intro st ex st0 hws hl
    rw [syncRepWaitLoop] at hl
    by_cases h1 : observedState e = SYNC_REP_WAIT_COMPLETE
    · rw [waitLoopStep, if_pos h1] at hl
      have hl' : some ((WaitLoopExit.complete : WaitLoopExit),
          stepShared e st) = some (ex, st0) := hl
      injection hl' with hp
      injection hp with hex hst
      subst hex
      subst hst
      refine ⟨hws e (by simp) h1, fun h => absurd h (by decide)⟩
    · rw [waitLoopStep, if_neg h1] at hl
      by_cases h2 : (st.procDiePending || e.diePending) = true
      · rw [if_pos h2] at hl
        have hl' : some ((WaitLoopExit.procDie : WaitLoopExit),
            SyncRepCancelWait
              { stepShared e st with
                warnings := (stepShared e st).warnings ++
                  [.adminShutdownLocalOnly]
                outputActive := false }) = some (ex, st0) := hl
        injection hl' with hp
        injection hp with hex hst
        subst hex
        subst hst
        exact ⟨rfl, fun _ => ⟨h2, by simp [SyncRepCancelWait], rfl⟩⟩
      · rw [if_neg h2] at hl
        by_cases h3 : (st.queryCancelPending || e.cancelPending) = true
        · rw [if_pos h3] at hl
          have hl' : some ((WaitLoopExit.queryCancel : WaitLoopExit),
              SyncRepCancelWait
                { stepShared e st with
                  queryCancelPending := false
                  warnings := (stepShared e st).warnings ++
                    [.queryCancelLocalOnly] }) = some (ex, st0) := hl
          injection hl' with hp
          injection hp with hex hst
          subst hex
          subst hst
          exact ⟨rfl, fun h => absurd h (by decide)⟩
        · rw [if_neg h3] at hl
          by_cases h4 : e.postmasterAlive = false
          · rw [if_pos h4] at hl
            have hl' : some ((WaitLoopExit.postmasterDeath : WaitLoopExit),
                SyncRepCancelWait
                  { stepShared e st with
                    procDiePending := true, outputActive := false }) =
                some (ex, st0) := hl
            injection hl' with hp
            injection hp with hex hst
            subst hex
            subst hst
            exact ⟨rfl, fun h => absurd h (by decide)⟩
          · rw [if_neg h4] at hl
            have hl' : syncRepWaitLoop es (stepShared e st) =
                some (ex, st0) := hl
            exact ih (stepShared e st) ex st0
              (fun x hx => hws x (by simp [hx])) hl'

/--
C6: whenever the wait loop of `SyncRepWaitForLSN` returns, it did so
through one of its four exits (`WaitLoopExit` lists them all: state
reached `SYNC_REP_WAIT_COMPLETE`, `ProcDiePending`,
`QueryCancelPending`, postmaster death), the backend's queue node is
detached and its state is `SYNC_REP_NOT_WAITING` on return, and on the
`ProcDiePending` exit the flag is still set, output is shut off, and
the WARNING that the commit is only locally durable was emitted.  The
hypothesis on the trace is the wal-sender wake protocol: a backend that
observes `SYNC_REP_WAIT_COMPLETE` has already been detached.
-/
theorem syncRepWaitForLSN_exit_clean (trace : List WaitEnv)
    (st : BackendWaitState) (ex : WaitLoopExit) (st' : BackendWaitState)
    (hws : ∀ e ∈ trace, observedState e = SYNC_REP_WAIT_COMPLETE →
      e.queuedNow = false)
    (hres : SyncRepWaitForLSNFinish trace st = some (ex, st')) :
    st'.syncRepState = SYNC_REP_NOT_WAITING ∧
    st'.queued = false ∧
    (ex = .procDie → st'.procDiePending = true ∧
      SyncRepWarning.adminShutdownLocalOnly ∈ st'.warnings ∧
      st'.outputActive = false) := by
  rw [SyncRepWaitForLSNFinish] at hres
  cases hloop : syncRepWaitLoop trace st with
  | none =>
    rw [hloop] at hres
    exact absurd hres (by simp)
  | some p =>
    obtain ⟨ex0, st0⟩ := p
    rw [hloop] at hres
    have hres' : some (ex0,
        { st0 with syncRepState := SYNC_REP_NOT_WAITING }) =
        some (ex, st') := hres
    injection hres' with hp
    injection hp with hex hst
    subst hex
    subst hst
    have hpost := syncRepWaitLoop_post trace st ex0 st0 hws hloop
    exact ⟨rfl, hpost.1, fun h => hpost.2 h⟩

/--
C6 witness: a backend that waits one idle iteration and then receives a
pending process termination; it exits through the `ProcDiePending` path
detached, state `SYNC_REP_NOT_WAITING`, flag still set, output off,
with the local-only WARNING emitted.
-/
theorem syncRepWaitForLSN_exit_clean_witness :
    (∀ e ∈ [(⟨1, 1, true, false, false, true⟩ : WaitEnv),
            ⟨1, 1, true, true, false, true⟩],
      observedState e = SYNC_REP_WAIT_COMPLETE → e.queuedNow = false) ∧
    SyncRepWaitForLSNFinish
      [⟨1, 1, true, false, false, true⟩, ⟨1, 1, true, true, false, true⟩]
      ⟨SYNC_REP_WAITING, true, false, false, true, []⟩ =
      some (.procDie,
        ⟨0, false, true, false, false, [.adminShutdownLocalOnly]⟩) ∧
    ((⟨0, false, true, false, false,
        [.adminShutdownLocalOnly]⟩ : BackendWaitState).syncRepState =
      SYNC_REP_NOT_WAITING ∧
    (⟨0, false, true, false, false,
        [.adminShutdownLocalOnly]⟩ : BackendWaitState).queued = false ∧
    (WaitLoopExit.procDie = .procDie →
      (⟨0, false, true, false, false,
          [.adminShutdownLocalOnly]⟩ : BackendWaitState).procDiePending =
        true ∧
      SyncRepWarning.adminShutdownLocalOnly ∈
        (⟨0, false, true, false, false,
          [.adminShutdownLocalOnly]⟩ : BackendWaitState).warnings ∧
      (⟨0, false, true, false, false,
          [.adminShutdownLocalOnly]⟩ : BackendWaitState).outputActive =
        false)) :=
  ⟨by decide, by decide,
   syncRepWaitForLSN_exit_clean
     [⟨1, 1, true, false, false, true⟩, ⟨1, 1, true, true, false, true⟩]
     ⟨SYNC_REP_WAITING, true, false, false, true, []⟩ .procDie
     ⟨0, false, true, false, false, [.adminShutdownLocalOnly]⟩
     (by decide) (by decide)⟩

end Syncrep

namespace Fdwxact

/-! ## Resolver idle timeout (claim C7), from
`src/backend/access/fdwxact/launcher.c` -/

/-- `TimestampTz`: microseconds since the epoch (a signed 64-bit value;
comparisons and the one addition below stay far from the 64-bit range
for meaningful timestamps). -/
abbrev TimestampTz := Int

/-- `TimestampTzPlusMilliseconds(tz, ms)` (timestamp.h):
`tz + ms * 1000`. -/
def TimestampTzPlusMilliseconds (tz : TimestampTz) (ms : Nat) :
    TimestampTz :=
  tz + ms * 1000

/-- `InvalidPid` (miscadmin.h). -/
def InvalidPid : Int := -1

/-- `InvalidOid` (postgres_ext.h). -/
def InvalidOid : Nat := 0

/-- The resolver-slot fields `FXRslvCheckTimeout` touches
(`FdwXactResolver` in fdwxact.h). -/
structure FdwXactResolver where
  pid : Int
  in_use : Bool
  dbid : Nat
  deriving Repr, DecidableEq

/-- `fdwxact_resolver_detach` (launcher.c): under
`FdwXactResolverLock`, clear the slot — `pid = InvalidPid`,
`in_use = false`, `dbid = InvalidOid`. -/
def fdwxact_resolver_detach (slot : FdwXactResolver) : FdwXactResolver :=
  { slot with pid := InvalidPid, in_use := false, dbid := InvalidOid }

/--
`FXRslvCheckTimeout(now)` (launcher.c): do nothing when
`foreign_xact_resolver_timeout` is 0; do nothing while `now` is before
`last_resolution_time + timeout`; past that point, when no waiter is
enqueued for this database, detach the slot and `proc_exit(0)` (the
returned flag), otherwise stay.  `waiterExists` is the value of
`FdwXactWaiterExists(MyDatabaseId)` read under `FdwXactResolutionLock`.
-/
def FXRslvCheckTimeout (foreign_xact_resolver_timeout : Nat)
    (last_resolution_time now : TimestampTz) (waiterExists : Bool)
    (slot : FdwXactResolver) : FdwXactResolver × Bool :=
  if foreign_xact_resolver_timeout = 0 then (slot, false)
  else
    if now < TimestampTzPlusMilliseconds last_resolution_time
        foreign_xact_resolver_timeout then (slot, false)
    else if waiterExists = false then (fdwxact_resolver_detach slot, true)
    else (slot, false)

/--
C7: with a nonzero `foreign_xact_resolver_timeout`, a timeout check at
or past `last_resolution_time + timeout` with no waiter enqueued
detaches the slot (`pid = InvalidPid`, `in_use = false`,
`dbid = InvalidOid`) and exits; with the timeout set to 0 the check
never exits and never touches the slot.
-/
theorem fxRslvCheckTimeout_spec (timeout : Nat)
    (last now : TimestampTz) (waiterExists : Bool)
    (slot : FdwXactResolver) :
    (timeout ≠ 0 →
      TimestampTzPlusMilliseconds last timeout ≤ now →
      waiterExists = false →
      FXRslvCheckTimeout timeout last now waiterExists slot =
        (⟨InvalidPid, false, InvalidOid⟩, true)) ∧
    FXRslvCheckTimeout 0 last now waiterExists slot = (slot, false) := by
  constructor
  · intro ht hnow hw
    rw [FXRslvCheckTimeout, if_neg ht, if_neg (Int.not_lt.mpr hnow),
      if_pos hw]
    rfl
  · rw [FXRslvCheckTimeout, if_pos rfl]

/--
C7 witness: a 60000 ms timeout elapsing (last resolution at 1000000 µs,
check at 61000000 µs) with no waiter detaches and exits, and a zero
timeout leaves the slot alone.
-/
theorem fxRslvCheckTimeout_spec_witness :
    FXRslvCheckTimeout 60000 1000000 61000000 false ⟨77, true, 5⟩ =
      (⟨InvalidPid, false, InvalidOid⟩, true) ∧
    FXRslvCheckTimeout 0 1000000 61000000 false ⟨77, true, 5⟩ =
      (⟨77, true, 5⟩, false) :=
  ⟨(fxRslvCheckTimeout_spec 60000 1000000 61000000 false
      ⟨77, true, 5⟩).1 (by decide) (by decide) rfl,
   (fxRslvCheckTimeout_spec 0 1000000 61000000 false ⟨77, true, 5⟩).2⟩

end Fdwxact

namespace PgFdw

/-! ## The postgres_fdw resolve driver (claim C8), from
`contrib/postgres_fdw/connection.c` -/

/-- `PGSIXBIT(ch)` (elog.h): `((ch) - '0') & 0x3F`; SQLSTATE characters
are digits and capital letters, all at or above `'0'` (48). -/
def PGSIXBIT (ch : Nat) : Nat := (ch - 48) % 64

/-- `MAKE_SQLSTATE(ch1..ch5)` (elog.h): pack five characters, six bits
each. -/
def MAKE_SQLSTATE (c1 c2 c3 c4 c5 : Nat) : Nat :=
  PGSIXBIT c1 + PGSIXBIT c2 * 64 + PGSIXBIT c3 * 64 ^ 2 +
    PGSIXBIT c4 * 64 ^ 3 + PGSIXBIT c5 * 64 ^ 4

/-- `ERRCODE_UNDEFINED_OBJECT` = SQLSTATE `42704` (errcodes.h). -/
def ERRCODE_UNDEFINED_OBJECT : Nat := MAKE_SQLSTATE 52 50 55 48 52

/-- `ERRCODE_CONNECTION_FAILURE` = SQLSTATE `08006` (errcodes.h). -/
def ERRCODE_CONNECTION_FAILURE : Nat := MAKE_SQLSTATE 48 56 48 48 54

/-- Outcome of the `PQexec` of `COMMIT PREPARED` / `ROLLBACK PREPARED`:
command ok, or a failure carrying the optional `PG_DIAG_SQLSTATE`
field (five character codes) of the result. -/
inductive PQExecResult
  | commandOk
  | fail (diag_sqlstate : Option (Nat × Nat × Nat × Nat × Nat))
  deriving Repr, DecidableEq

/--
`postgresResolvePreparedForeignTransaction` (connection.c), given
whether a connection was obtained (from the connection hash or
`GetConnection` inside a transaction) and the outcome of the
`COMMIT PREPARED` / `ROLLBACK PREPARED` command on it: with no
connection return false; on command success return true; on command
failure take the reported SQLSTATE (defaulting to
`ERRCODE_CONNECTION_FAILURE` when the result carries none) and report
success exactly when it is `ERRCODE_UNDEFINED_OBJECT` — the prepared
transaction no longer exists on the foreign server.
-/
def postgresResolvePreparedForeignTransaction (gotConn : Bool)
    (res : PQExecResult) : Bool :=
  if gotConn then
    match res with
    | .commandOk => true
    | .fail diag =>
      let sqlstate :=
        match diag with
        | some (c1, c2, c3, c4, c5) => MAKE_SQLSTATE c1 c2 c3 c4 c5
        | none => ERRCODE_CONNECTION_FAILURE
      sqlstate == ERRCODE_UNDEFINED_OBJECT
  else false

/--
C8: the resolve driver reports success on a clean command; on a failed
command with a SQLSTATE it reports success exactly when that SQLSTATE is
undefined_object (42704); a failed command without a SQLSTATE is a
failure (it maps to connection_failure); and without a connection it
reports failure whatever the command outcome would have been.
-/
theorem postgresResolve_spec :
    postgresResolvePreparedForeignTransaction true .commandOk = true ∧
    (∀ c1 c2 c3 c4 c5 : Nat,
      postgresResolvePreparedForeignTransaction true
          (.fail (some (c1, c2, c3, c4, c5))) = true ↔
        MAKE_SQLSTATE c1 c2 c3 c4 c5 = ERRCODE_UNDEFINED_OBJECT) ∧
    postgresResolvePreparedForeignTransaction true (.fail none) = false ∧
    (∀ res : PQExecResult,
      postgresResolvePreparedForeignTransaction false res = false) := by
  refine ⟨rfl, ?_, by decide, fun res => rfl⟩
  intro c1 c2 c3 c4 c5
  simp [postgresResolvePreparedForeignTransaction]

/--
C8 witness: SQLSTATE 42704 (undefined_object) is reported as success,
SQLSTATE 08006 is reported as failure, and a missing connection is a
failure.
-/
theorem postgresResolve_spec_witness :
    postgresResolvePreparedForeignTransaction true
      (.fail (some (52, 50, 55, 48, 52))) = true ∧
    postgresResolvePreparedForeignTransaction true
      (.fail (some (48, 56, 48, 48, 54))) = false ∧
    postgresResolvePreparedForeignTransaction false .commandOk = false :=
  ⟨(postgresResolve_spec.2.1 52 50 55 48 52).mpr (by decide),
   by
    have h := postgresResolve_spec.2.1 48 56 48 48 54
    revert h
    decide,
   postgresResolve_spec.2.2.2 .commandOk⟩

end PgFdw
